import Mathlib

/-!
Todo backend (main.go): handlers over a document collection

Shallow embedding of the four HTTP handlers of `main.go` (`getTodos`,
`createTodos`, `updateTodos`, `deleteTodos`).  The handlers are translated
line by line; the two libraries they call are modelled as follows.

* The MongoDB collection is a list of `Todo` documents in insertion order.
  `Find`, `InsertOne`, `UpdateOne` and `DeleteOne` follow the documented
  behaviour of the driver: each may fail as a whole (argument `fail`), an insert
  of a document without `_id` gets a driver generated id (argument `gen`), an
  insert with an `_id` that is already present is a duplicate key error, update
  and delete touch the first document matching the filter and succeed when no
  document matches.
* The web framework: a handler either returns an error (left to the default
  error handler of the framework) or writes a status code and a JSON body.
  `encoding/json` encodes a nil slice as `null` and a non-nil slice as an array.
-/

namespace TodoApp

/-! ## Data model -/

/-- Identifier of the storage driver (`primitive.ObjectID`, twelve bytes), held as
its list of bytes. -/
structure ObjectID where
  bytes : List Nat
deriving DecidableEq, Repr

/-- The zero value of `ObjectID` (`primitive.NilObjectID`). -/
def NilObjectID : ObjectID := ⟨List.replicate 12 0⟩

/-- `ObjectID.IsZero` of the driver. -/
def ObjectID.IsZero (id : ObjectID) : Bool := decide (id = NilObjectID)

/-- `ObjectID.Hex`: two lower-case hexadecimal digits per byte. -/
def ObjectID.Hex (id : ObjectID) : String :=
  String.mk (id.bytes.flatMap fun b => [Nat.digitChar (b / 16), Nat.digitChar (b % 16)])

/-- `type Todo struct` of main.go (lines 19-23). -/
structure Todo where
  ID : ObjectID
  Completed : Bool
  Body : String
deriving DecidableEq, Repr

/-- The zero value `new(Todo)` (line 101). -/
def Todo.zero : Todo := ⟨NilObjectID, false, ""⟩

/-- Errors a handler can return to the framework. -/
inductive Error where
  | bodyParser
  | storage
  | duplicateKey
deriving DecidableEq, Repr

/-- JSON values written by the handlers. -/
inductive JSON where
  | null
  | bool (b : Bool)
  | str (s : String)
  | arr (xs : List JSON)
  | obj (kvs : List (String × JSON))

/-- Response written by a handler: status code and JSON body. -/
structure Response where
  status : Nat
  body : JSON

/-- Outcome of a handler: an error handed to the framework, or a response. -/
abbrev Result := Except Error Response

/-! ## JSON encoding (`encoding/json` with the struct tags of `Todo`) -/

/-- Encoding of a `Todo`: `_id` is a twelve byte array, never empty for
`omitempty`, and is written as its hexadecimal string. -/
def Todo.toJSON (t : Todo) : JSON :=
  JSON.obj [("_id", JSON.str t.ID.Hex), ("completed", JSON.bool t.Completed),
    ("body", JSON.str t.Body)]

/-- A Go slice of todos: `none` is the nil slice, `some xs` a non-nil slice. -/
abbrev TodoSlice := Option (List Todo)

/-- Go `append(todos, todo)`. -/
def TodoSlice.append (s : TodoSlice) (t : Todo) : TodoSlice :=
  match s with
  | none => some [t]
  | some xs => some (xs ++ [t])

/-- Elements of a slice (`len` of a nil slice is zero). -/
def TodoSlice.items (s : TodoSlice) : List Todo :=
  match s with
  | none => []
  | some xs => xs

/-- Encoding of `[]Todo`: a nil slice encodes as `null`, any other as an array. -/
def marshalTodos (s : TodoSlice) : JSON :=
  match s with
  | none => JSON.null
  | some xs => JSON.arr (xs.map Todo.toJSON)

/-! ## Identifier parsing (`primitive.ObjectIDFromHex`) -/

/-- Value of one hexadecimal digit, either case. -/
def fromHexChar (c : Char) : Option Nat :=
  if '0' ≤ c ∧ c ≤ '9' then some (c.toNat - '0'.toNat)
  else if 'a' ≤ c ∧ c ≤ 'f' then some (c.toNat - 'a'.toNat + 10)
  else if 'A' ≤ c ∧ c ≤ 'F' then some (c.toNat - 'A'.toNat + 10)
  else none

/-- Go `hex.DecodeString` on the characters of a string: two digits per byte. -/
def hexDecode : List Char → Option (List Nat)
  | [] => some []
  | [_] => none
  | a :: b :: rest =>
    match fromHexChar a, fromHexChar b, hexDecode rest with
    | some hi, some lo, some tl => some ((hi * 16 + lo) :: tl)
    | _, _, _ => none

/-- `primitive.ObjectIDFromHex`: the string must be 24 bytes long and decode as
hexadecimal. -/
def ObjectIDFromHex (s : String) : Option ObjectID :=
  if s.utf8ByteSize ≠ 24 then none
  else match hexDecode s.data with
    | some bs => some ⟨bs⟩
    | none => none

/-! ## Storage model (one MongoDB collection) -/

/-- Documents of the collection, in insertion order. -/
abbrev Collection := List Todo

/-- `collection.Find` with the empty filter: every document. -/
def Find (fail : Option Error) (coll : Collection) : Except Error (List Todo) :=
  match fail with
  | some e => .error e
  | none => .ok coll

/-- `collection.InsertOne`: the `_id` field is omitted from the document when it is
zero (`bson:"_id,omitempty"`) and then generated; a present `_id` is kept. Returns
the inserted id and the new collection. -/
def InsertOne (fail : Option Error) (gen : ObjectID) (coll : Collection) (doc : Todo) :
    Except Error (ObjectID × Collection) :=
  match fail with
  | some e => .error e
  | none =>
    let id := if doc.ID.IsZero then gen else doc.ID
    if coll.any (fun d => decide (d.ID = id)) then .error Error.duplicateKey
    else .ok (id, coll ++ [⟨id, doc.Completed, doc.Body⟩])

/-- Effect of `$set completed true` on the first document whose `_id` is `oid`. -/
def setCompleted : Collection → ObjectID → Collection
  | [], _ => []
  | d :: ds, oid =>
    if d.ID = oid then ⟨d.ID, true, d.Body⟩ :: ds else d :: setCompleted ds oid

/-- `collection.UpdateOne` with filter on `_id` and update `$set completed true`. -/
def UpdateOne (fail : Option Error) (coll : Collection) (oid : ObjectID) :
    Except Error Collection :=
  match fail with
  | some e => .error e
  | none => .ok (setCompleted coll oid)

/-- Removal of the first document whose `_id` is `oid`. -/
def removeFirst : Collection → ObjectID → Collection
  | [], _ => []
  | d :: ds, oid => if d.ID = oid then ds else d :: removeFirst ds oid

/-- `collection.DeleteOne` with filter on `_id`. -/
def DeleteOne (fail : Option Error) (coll : Collection) (oid : ObjectID) :
    Except Error Collection :=
  match fail with
  | some e => .error e
  | none => .ok (removeFirst coll oid)

/-! ## Requests -/

/-- Body of a create request as seen by `c.BodyParser`: malformed, or a JSON
object with the optional fields `_id`, `completed` and `body`. -/
inductive RequestBody where
  | malformed
  | json (id : Option ObjectID) (completed : Option Bool) (body : Option String)
deriving DecidableEq, Repr

/-- `c.BodyParser(todo)`: fields present in the request overwrite those of `todo`. -/
def BodyParser (req : RequestBody) (todo : Todo) : Except Error Todo :=
  match req with
  | .malformed => .error Error.bodyParser
  | .json id completed body =>
    .ok ⟨id.getD todo.ID, completed.getD todo.Completed, body.getD todo.Body⟩

/-! ## Handlers -/

/-- Handler `getTodos` (lines 76-98). -/
def getTodos (fail : Option Error) (coll : Collection) : Result :=
  match Find fail coll with
  | .error e => .error e
  | .ok cursor =>
    let todos : TodoSlice := cursor.foldl TodoSlice.append none
    .ok ⟨200, marshalTodos todos⟩

/-- Handler `createTodos` (lines 100-119). -/
def createTodos (fail : Option Error) (gen : ObjectID) (coll : Collection)
    (req : RequestBody) : Result × Collection :=
  match BodyParser req Todo.zero with
  | .error e => (.error e, coll)
  | .ok todo =>
    if todo.Body = "" then
      (.ok ⟨400, JSON.obj [("error", JSON.str "Todo body cannot be empty")]⟩, coll)
    else
      match InsertOne fail gen coll todo with
      | .error e => (.error e, coll)
      | .ok (insertedID, coll1) =>
        (.ok ⟨201, Todo.toJSON ⟨insertedID, todo.Completed, todo.Body⟩⟩, coll1)

/-- Handler `updateTodos` (lines 121-140). -/
def updateTodos (fail : Option Error) (coll : Collection) (id : String) :
    Result × Collection :=
  match ObjectIDFromHex id with
  | none => (.ok ⟨400, JSON.obj [("error", JSON.str "Invalid Todo ID")]⟩, coll)
  | some objectID =>
    match UpdateOne fail coll objectID with
    | .error e => (.error e, coll)
    | .ok coll1 => (.ok ⟨200, JSON.obj [("success", JSON.str "true")]⟩, coll1)

/-- Handler `deleteTodos` (lines 142-155). -/
def deleteTodos (fail : Option Error) (coll : Collection) (id : String) :
    Result × Collection :=
  match ObjectIDFromHex id with
  | none => (.ok ⟨400, JSON.obj [("error", JSON.str "Invalid Todo ID")]⟩, coll)
  | some objectID =>
    match DeleteOne fail coll objectID with
    | .error e => (.error e, coll)
    | .ok coll1 => (.ok ⟨200, JSON.obj [("success", JSON.bool true)]⟩, coll1)

/-! ## Predicates and runs used in the statements -/

/-- A string of exactly 24 hexadecimal digits. -/
def IsHex24 (s : String) : Prop :=
  s.length = 24 ∧ ∀ c ∈ s.data, (fromHexChar c).isSome = true

/-- No two documents of the collection share an `_id` (the unique index on `_id`). -/
def UniqueIDs (coll : Collection) : Prop := (coll.map Todo.ID).Nodup

/-- Every persisted todo has a non-empty body. -/
def BodyNonEmpty (coll : Collection) : Prop := ∀ d ∈ coll, d.Body ≠ ""

/-- One request to one of the four routes, with the behaviour of the storage
during that request. -/
inductive Call where
  | get (fail : Option Error)
  | create (fail : Option Error) (gen : ObjectID) (req : RequestBody)
  | update (fail : Option Error) (id : String)
  | delete (fail : Option Error) (id : String)

/-- Collection after the handler of a request has run. -/
def step (coll : Collection) : Call → Collection
  | .get _ => coll
  | .create fail gen req => (createTodos fail gen coll req).2
  | .update fail id => (updateTodos fail coll id).2
  | .delete fail id => (deleteTodos fail coll id).2

/-- One create request with the behaviour of the storage during it. -/
abbrev CreateCall := Option Error × ObjectID × RequestBody

/-- Runs create requests one after the other: the results and the final collection. -/
def createAll (coll : Collection) : List CreateCall → List Result × Collection
  | [] => ([], coll)
  | c :: cs =>
    let r := createTodos c.1 c.2.1 coll c.2.2
    let rest := createAll r.2 cs
    (r.1 :: rest.1, rest.2)

/-! ## Identifier parsing: which strings are accepted -/

theorem utf8Size_of_hex (c : Char) (h : (fromHexChar c).isSome = true) : c.utf8Size = 1 := by
  have hle : c.val.toNat ≤ 102 := by
    unfold fromHexChar at h
    split_ifs at h with h1 h2 h3
    · have := h1.2
      have h9 : c.val ≤ ('9' : Char).val := this
      have : c.val.toNat ≤ ('9' : Char).val.toNat := h9
      simpa using (le_trans this (by decide))
    · have h9 : c.val ≤ ('f' : Char).val := h2.2
      have : c.val.toNat ≤ ('f' : Char).val.toNat := h9
      simpa using (le_trans this (by decide))
    · have h9 : c.val ≤ ('F' : Char).val := h3.2
      have : c.val.toNat ≤ ('F' : Char).val.toNat := h9
      simpa using (le_trans this (by decide))
    · simp at h
  have h7 : c.val ≤ 127 := by
    show c.val.toNat ≤ 127
    omega
  simp [Char.utf8Size, h7]

theorem utf8Len_of_hex (cs : List Char) (h : ∀ c ∈ cs, (fromHexChar c).isSome = true) :
    String.utf8Len cs = cs.length := by
  induction cs with
  | nil => rfl
  | cons c cs ih =>
    simp only [String.utf8Len_cons, List.length_cons]
    rw [ih (fun x hx => h x (List.mem_cons_of_mem _ hx)), utf8Size_of_hex c (h c (List.mem_cons_self _ _))]

theorem hexDecode_isSome (cs : List Char) :
    (hexDecode cs).isSome = true ↔ (cs.length % 2 = 0 ∧ ∀ c ∈ cs, (fromHexChar c).isSome = true) := by
  induction cs using hexDecode.induct with
  | case1 => simp [hexDecode]
  | case2 c => simp [hexDecode]
  | case3 a b rest hi lo tl h1 h2 h3 ih =>
    have hl : (a :: b :: rest).length % 2 = rest.length % 2 := by
      simp only [List.length_cons]; omega
    rw [hexDecode, hl]
    simp only [h1, h2, h3, Option.isSome_some, true_iff, List.mem_cons, forall_eq_or_imp]
    simp only [h1, Option.isSome_some, true_iff] at ih
    exact ⟨ih.1, trivial, trivial, ih.2⟩
  | case4 a b rest hno ih =>
    have hl : (a :: b :: rest).length % 2 = rest.length % 2 := by
      simp only [List.length_cons]; omega
    rw [hexDecode, hl]
    cases ha : fromHexChar a with
    | none => simp [ha]
    | some hi =>
      cases hb : fromHexChar b with
      | none => simp [hb]
      | some lo =>
        cases hr : hexDecode rest with
        | some tl => exact absurd hr (fun h => hno hi lo tl ha hb h)
        | none =>
          simp only [hr, Option.isSome_none, Bool.false_eq_true, false_iff, not_and] at ih
          simp only [Option.isSome_none, Bool.false_eq_true, List.mem_cons, forall_eq_or_imp,
            false_iff, not_and]
          intro h1 _ _
          exact ih h1

theorem ObjectIDFromHex_isSome (s : String) :
    (ObjectIDFromHex s).isSome = true ↔ IsHex24 s := by
  unfold ObjectIDFromHex IsHex24
  have hd := hexDecode_isSome s.data
  constructor
  · intro h
    split_ifs at h with h24
    · simp at h
    · cases hdec : hexDecode s.data with
      | none => simp [hdec] at h
      | some bs =>
        have hall := (hd.1 (by simp [hdec])).2
        refine ⟨?_, hall⟩
        have := utf8Len_of_hex s.data hall
        have h24 : s.utf8ByteSize = 24 := by simpa using h24
        rw [show s.utf8ByteSize = String.utf8Len s.data from rfl, this] at h24
        exact h24
  · rintro ⟨hlen, hall⟩
    have hl : s.data.length = 24 := hlen
    have h24 : s.utf8ByteSize = 24 := by
      rw [show s.utf8ByteSize = String.utf8Len s.data from rfl, utf8Len_of_hex s.data hall, hl]
    have hsome := hd.2 ⟨by omega, hall⟩
    rw [if_neg (by simp [h24])]
    cases hdec : hexDecode s.data with
    | none => simp [hdec] at hsome
    | some bs => simp

theorem ObjectIDFromHex_eq_none (s : String) :
    ObjectIDFromHex s = none ↔ ¬ IsHex24 s := by
  rw [← ObjectIDFromHex_isSome]
  cases ObjectIDFromHex s <;> simp

/-! ## Validation errors -/

/-- C1: a create request whose `body` field is empty or absent is answered with
status 400 and the object with `error` set to "Todo body cannot be empty", whatever
the storage would do, and the collection is the one before the request. -/
theorem createTodos_empty_body (fail : Option Error) (gen : ObjectID) (coll : Collection)
    (id : Option ObjectID) (completed : Option Bool) (body : Option String)
    (h : body = none ∨ body = some "") :
    createTodos fail gen coll (.json id completed body) =
      (.ok ⟨400, JSON.obj [("error", JSON.str "Todo body cannot be empty")]⟩, coll) := by
  rcases h with h | h <;> subst h <;> simp [createTodos, BodyParser, Todo.zero]

theorem createTodos_empty_body_witness :
    ((none : Option String) = none ∨ (none : Option String) = some "") ∧
    createTodos (some Error.storage) NilObjectID [⟨⟨[7]⟩, true, "x"⟩]
        (.json (some ⟨[9]⟩) (some true) none) =
      (.ok ⟨400, JSON.obj [("error", JSON.str "Todo body cannot be empty")]⟩,
        [⟨⟨[7]⟩, true, "x"⟩]) :=
  ⟨Or.inl rfl, createTodos_empty_body _ _ _ _ _ _ (Or.inl rfl)⟩

/-- C2: for an id that is not a 24 digit hexadecimal string, both `updateTodos`
and `deleteTodos` answer with status 400 and the object with `error` set to
"Invalid Todo ID", whatever the storage would do, and leave the collection as it
was. -/
theorem invalid_id_rejected (id : String) (h : ¬ IsHex24 id) (fail : Option Error)
    (coll : Collection) :
    updateTodos fail coll id =
      (.ok ⟨400, JSON.obj [("error", JSON.str "Invalid Todo ID")]⟩, coll) ∧
    deleteTodos fail coll id =
      (.ok ⟨400, JSON.obj [("error", JSON.str "Invalid Todo ID")]⟩, coll) := by
  have hn := (ObjectIDFromHex_eq_none id).2 h
  simp [updateTodos, deleteTodos, hn]

theorem invalid_id_rejected_witness :
    ¬ IsHex24 "not-an-id" ∧
    updateTodos none [⟨⟨[7]⟩, false, "x"⟩] "not-an-id" =
      (.ok ⟨400, JSON.obj [("error", JSON.str "Invalid Todo ID")]⟩, [⟨⟨[7]⟩, false, "x"⟩]) ∧
    deleteTodos none [⟨⟨[7]⟩, false, "x"⟩] "not-an-id" =
      (.ok ⟨400, JSON.obj [("error", JSON.str "Invalid Todo ID")]⟩, [⟨⟨[7]⟩, false, "x"⟩]) :=
  ⟨fun h => absurd h.1 (by decide),
    invalid_id_rejected "not-an-id" (fun h => absurd h.1 (by decide)) none _⟩

/-! ## Create -/

/-- C3: for a create request with a non-empty `body` and no `completed` field, when
the storage insert succeeds `createTodos` answers 201 with the todo whose id is the
one returned by the insert, whose `completed` is false and whose `body` is the
supplied one, and the collection afterwards is the previous one followed by exactly
that document. -/
theorem createTodos_created (fail : Option Error) (gen : ObjectID) (coll coll1 : Collection)
    (id : Option ObjectID) (b : String) (insertedID : ObjectID) (hb : b ≠ "")
    (hins : InsertOne fail gen coll ⟨id.getD NilObjectID, false, b⟩ = .ok (insertedID, coll1)) :
    createTodos fail gen coll (.json id none (some b)) =
      (.ok ⟨201, JSON.obj [("_id", JSON.str insertedID.Hex), ("completed", JSON.bool false),
        ("body", JSON.str b)]⟩, coll1) ∧
    coll1 = coll ++ [⟨insertedID, false, b⟩] := by
  constructor
  · simp [createTodos, BodyParser, Todo.zero, hb, hins, Todo.toJSON]
  · cases fail with
    | some e => simp [InsertOne] at hins
    | none =>
      simp only [InsertOne] at hins
      split_ifs at hins <;>
        (simp only [Except.ok.injEq, Prod.mk.injEq] at hins
         rw [← hins.2, hins.1])

theorem createTodos_created_witness :
    "buy milk" ≠ "" ∧
    InsertOne none ⟨[1, 2, 3, 4, 5, 6, 7, 8, 9, 10, 11, 12]⟩ []
        ⟨(none : Option ObjectID).getD NilObjectID, false, "buy milk"⟩ =
      .ok (⟨[1, 2, 3, 4, 5, 6, 7, 8, 9, 10, 11, 12]⟩,
        [⟨⟨[1, 2, 3, 4, 5, 6, 7, 8, 9, 10, 11, 12]⟩, false, "buy milk"⟩]) ∧
    createTodos none ⟨[1, 2, 3, 4, 5, 6, 7, 8, 9, 10, 11, 12]⟩ []
        (.json none none (some "buy milk")) =
      (.ok ⟨201, JSON.obj [("_id", JSON.str
          (ObjectID.Hex ⟨[1, 2, 3, 4, 5, 6, 7, 8, 9, 10, 11, 12]⟩)),
          ("completed", JSON.bool false), ("body", JSON.str "buy milk")]⟩,
        [⟨⟨[1, 2, 3, 4, 5, 6, 7, 8, 9, 10, 11, 12]⟩, false, "buy milk"⟩]) :=
  ⟨by decide, rfl,
    (createTodos_created none ⟨[1, 2, 3, 4, 5, 6, 7, 8, 9, 10, 11, 12]⟩ [] _ none
      "buy milk" ⟨[1, 2, 3, 4, 5, 6, 7, 8, 9, 10, 11, 12]⟩ (by decide) rfl).1⟩

/-! ## Complete -/

theorem setCompleted_idem (coll : Collection) (oid : ObjectID) :
    setCompleted (setCompleted coll oid) oid = setCompleted coll oid := by
  induction coll with
  | nil => rfl
  | cons d ds ih =>
    by_cases h : d.ID = oid
    · simp [setCompleted, h]
    · simp [setCompleted, h, ih]

theorem setCompleted_find (coll : Collection) (oid : ObjectID) :
    (setCompleted coll oid).find? (fun d => decide (d.ID = oid)) =
      (coll.find? (fun d => decide (d.ID = oid))).map (fun d => ⟨d.ID, true, d.Body⟩) := by
  induction coll with
  | nil => rfl
  | cons d ds ih =>
    by_cases h : d.ID = oid
    · simp [setCompleted, h]
    · simp [setCompleted, h, ih]

theorem setCompleted_all (coll : Collection) (oid : ObjectID) (hu : UniqueIDs coll) :
    ∀ d ∈ setCompleted coll oid, d.ID = oid → d.Completed = true := by
  induction coll with
  | nil => simp [setCompleted]
  | cons d ds ih =>
    have hu2 : (d.ID ∉ ds.map Todo.ID) ∧ UniqueIDs ds := by
      simpa [UniqueIDs] using hu
    by_cases h : d.ID = oid
    · intro x hx hxid
      simp only [setCompleted, h, if_true, List.mem_cons] at hx
      rcases hx with hx | hx
      · rw [hx]
      · exact absurd (List.mem_map_of_mem Todo.ID hx) (by rw [hxid, ← h]; exact hu2.1)
    · intro x hx hxid
      simp only [setCompleted, h, if_false, List.mem_cons] at hx
      rcases hx with hx | hx
      · exact absurd (hx ▸ hxid) h
      · exact ih hu2.2 x hx hxid

theorem setCompleted_others (coll : Collection) (oid : ObjectID) :
    ∀ d ∈ coll, d.ID ≠ oid → d ∈ setCompleted coll oid := by
  induction coll with
  | nil => simp
  | cons d ds ih =>
    intro x hx hne
    by_cases h : d.ID = oid
    · simp only [setCompleted, h, if_true, List.mem_cons]
      rcases List.mem_cons.1 hx with hx | hx
      · exact absurd (hx ▸ h) hne
      · exact Or.inr hx
    · simp only [setCompleted, h, if_false, List.mem_cons]
      rcases List.mem_cons.1 hx with hx | hx
      · exact Or.inl hx
      · exact Or.inr (ih x hx hne)

theorem setCompleted_absent (coll : Collection) (oid : ObjectID)
    (h : ∀ d ∈ coll, d.ID ≠ oid) : setCompleted coll oid = coll := by
  induction coll with
  | nil => rfl
  | cons d ds ih =>
    have hd : d.ID ≠ oid := h d (List.mem_cons_self _ _)
    simp [setCompleted, hd, ih (fun x hx => h x (List.mem_cons_of_mem _ hx))]

/-- C4: for a valid id and any collection, when the storage update does not fail
`updateTodos` answers with status 200; afterwards the document matched by the id (if
any) is the one of before with `completed` set to true, and under unique ids every
document with that id is completed; documents with another id are kept; with no
document of that id the collection is unchanged; a second `updateTodos` with the
same id gives the same answer and the same collection as the first. -/
theorem updateTodos_idempotent (id : String) (oid : ObjectID)
    (h : ObjectIDFromHex id = some oid) (coll : Collection) :
    (∃ body, (updateTodos none coll id).1 = .ok ⟨200, body⟩) ∧
    ((updateTodos none coll id).2.find? (fun d => decide (d.ID = oid)) =
      (coll.find? (fun d => decide (d.ID = oid))).map (fun d => ⟨d.ID, true, d.Body⟩)) ∧
    (UniqueIDs coll → ∀ d ∈ (updateTodos none coll id).2, d.ID = oid → d.Completed = true) ∧
    (∀ d ∈ coll, d.ID ≠ oid → d ∈ (updateTodos none coll id).2) ∧
    ((∀ d ∈ coll, d.ID ≠ oid) → (updateTodos none coll id).2 = coll) ∧
    updateTodos none (updateTodos none coll id).2 id = updateTodos none coll id := by
  have hu : updateTodos none coll id =
      (.ok ⟨200, JSON.obj [("success", JSON.str "true")]⟩, setCompleted coll oid) := by
    simp [updateTodos, h, UpdateOne]
  have hu2 : updateTodos none (setCompleted coll oid) id =
      (.ok ⟨200, JSON.obj [("success", JSON.str "true")]⟩,
        setCompleted (setCompleted coll oid) oid) := by
    simp [updateTodos, h, UpdateOne]
  rw [hu]
  refine ⟨⟨_, rfl⟩, setCompleted_find coll oid, setCompleted_all coll oid,
    setCompleted_others coll oid, setCompleted_absent coll oid, ?_⟩
  rw [hu2, setCompleted_idem]

theorem updateTodos_idempotent_witness :
    ObjectIDFromHex "0102030405060708090a0b0c" =
      some ⟨[1, 2, 3, 4, 5, 6, 7, 8, 9, 10, 11, 12]⟩ ∧
    (updateTodos none [⟨⟨[1, 2, 3, 4, 5, 6, 7, 8, 9, 10, 11, 12]⟩, false, "buy milk"⟩]
        "0102030405060708090a0b0c").2 =
      [⟨⟨[1, 2, 3, 4, 5, 6, 7, 8, 9, 10, 11, 12]⟩, true, "buy milk"⟩] ∧
    updateTodos none
        (updateTodos none [⟨⟨[1, 2, 3, 4, 5, 6, 7, 8, 9, 10, 11, 12]⟩, false, "buy milk"⟩]
          "0102030405060708090a0b0c").2 "0102030405060708090a0b0c" =
      updateTodos none [⟨⟨[1, 2, 3, 4, 5, 6, 7, 8, 9, 10, 11, 12]⟩, false, "buy milk"⟩]
        "0102030405060708090a0b0c" :=
  ⟨by decide, by decide,
    (updateTodos_idempotent "0102030405060708090a0b0c" ⟨[1, 2, 3, 4, 5, 6, 7, 8, 9, 10, 11, 12]⟩
      (by decide) [⟨⟨[1, 2, 3, 4, 5, 6, 7, 8, 9, 10, 11, 12]⟩, false, "buy milk"⟩]).2.2.2.2.2⟩

/-! ## Delete -/

theorem removeFirst_eq_eraseP (coll : Collection) (oid : ObjectID) :
    removeFirst coll oid = coll.eraseP (fun d => decide (d.ID = oid)) := by
  induction coll with
  | nil => rfl
  | cons d ds ih =>
    by_cases h : d.ID = oid
    · simp [removeFirst, h]
    · simp [removeFirst, h, ih]

theorem removeFirst_absent (coll : Collection) (oid : ObjectID)
    (h : ∀ d ∈ coll, d.ID ≠ oid) : removeFirst coll oid = coll := by
  induction coll with
  | nil => rfl
  | cons d ds ih =>
    have hd : d.ID ≠ oid := h d (List.mem_cons_self _ _)
    simp [removeFirst, hd, ih (fun x hx => h x (List.mem_cons_of_mem _ hx))]

theorem removeFirst_unique (coll : Collection) (oid : ObjectID) (hu : UniqueIDs coll) :
    removeFirst coll oid = coll.filter (fun d => decide (d.ID ≠ oid)) := by
  induction coll with
  | nil => rfl
  | cons d ds ih =>
    have hu2 : (d.ID ∉ ds.map Todo.ID) ∧ UniqueIDs ds := by
      simpa [UniqueIDs] using hu
    by_cases h : d.ID = oid
    · have hds : ∀ x ∈ ds, x.ID ≠ oid := fun x hx hxid =>
        hu2.1 (by rw [h, ← hxid]; exact List.mem_map_of_mem Todo.ID hx)
      have hf : ds.filter (fun d => !decide (d.ID = oid)) = ds :=
        List.filter_eq_self.2 (fun x hx => by simpa using hds x hx)
      simp [removeFirst, h, hf]
    · simp [removeFirst, h, ih hu2.2]

/-- C5: for a valid id and any collection, when the storage delete does not fail
`deleteTodos` answers with status 200 and the object with `success` set to true;
the collection afterwards is the previous one without the first document of that
id, the other documents unchanged and in the same order; under unique ids no
document of that id is left and exactly the documents of other ids remain; with no
document of that id the collection is unchanged. -/
theorem deleteTodos_removes (id : String) (oid : ObjectID)
    (h : ObjectIDFromHex id = some oid) (coll : Collection) :
    (deleteTodos none coll id).1 = .ok ⟨200, JSON.obj [("success", JSON.bool true)]⟩ ∧
    (deleteTodos none coll id).2 = coll.eraseP (fun d => decide (d.ID = oid)) ∧
    (UniqueIDs coll →
      (deleteTodos none coll id).2 = coll.filter (fun d => decide (d.ID ≠ oid))) ∧
    ((∀ d ∈ coll, d.ID ≠ oid) → (deleteTodos none coll id).2 = coll) := by
  have hd : deleteTodos none coll id =
      (.ok ⟨200, JSON.obj [("success", JSON.bool true)]⟩, removeFirst coll oid) := by
    simp [deleteTodos, h, DeleteOne]
  rw [hd]
  exact ⟨rfl, removeFirst_eq_eraseP coll oid, removeFirst_unique coll oid,
    removeFirst_absent coll oid⟩

theorem deleteTodos_removes_witness :
    ObjectIDFromHex "0102030405060708090a0b0c" =
      some ⟨[1, 2, 3, 4, 5, 6, 7, 8, 9, 10, 11, 12]⟩ ∧
    (deleteTodos none [⟨⟨[7]⟩, false, "x"⟩] "0102030405060708090a0b0c").1 =
      .ok ⟨200, JSON.obj [("success", JSON.bool true)]⟩ ∧
    (deleteTodos none [⟨⟨[7]⟩, false, "x"⟩] "0102030405060708090a0b0c").2 =
      [⟨⟨[7]⟩, false, "x"⟩] :=
  ⟨by decide,
    (deleteTodos_removes "0102030405060708090a0b0c" ⟨[1, 2, 3, 4, 5, 6, 7, 8, 9, 10, 11, 12]⟩
      (by decide) [⟨⟨[7]⟩, false, "x"⟩]).1,
    by decide⟩

/-! ## List -/

/-- C6: on the empty collection with a successful read, `getTodos` answers with
status 200 and the JSON value `null` (the slice `todos` is still nil), which is not
the empty JSON array. -/
theorem getTodos_empty_is_null :
    getTodos none [] = .ok ⟨200, JSON.null⟩ ∧ JSON.null ≠ JSON.arr [] :=
  ⟨rfl, fun h => JSON.noConfusion h⟩

/-- C7: for the valid id "0102030405060708090a0b0c" and a successful update,
`updateTodos` answers with `success` set to the string "true", `deleteTodos` with
`success` set to the boolean true, and the two values differ. -/
theorem updateTodos_success_is_string :
    (updateTodos none [] "0102030405060708090a0b0c").1 =
      .ok ⟨200, JSON.obj [("success", JSON.str "true")]⟩ ∧
    (deleteTodos none [] "0102030405060708090a0b0c").1 =
      .ok ⟨200, JSON.obj [("success", JSON.bool true)]⟩ ∧
    JSON.str "true" ≠ JSON.bool true := by
  have h : ObjectIDFromHex "0102030405060708090a0b0c" =
      some ⟨[1, 2, 3, 4, 5, 6, 7, 8, 9, 10, 11, 12]⟩ := by decide
  refine ⟨?_, ?_, fun h => JSON.noConfusion h⟩
  · simp [updateTodos, h, UpdateOne]
  · simp [deleteTodos, h, DeleteOne]

/-- C8: a create request carrying `_id` is stored under that id and answered with
it, while the same request without `_id` is stored under the generated id: the
parsed documents handed to the insert differ, and so do the stored documents. -/
theorem createTodos_keeps_caller_id :
    BodyParser (.json (some ⟨[170, 170, 170, 170, 170, 170, 170, 170, 170, 170, 170, 170]⟩)
        none (some "a")) Todo.zero =
      .ok ⟨⟨[170, 170, 170, 170, 170, 170, 170, 170, 170, 170, 170, 170]⟩, false, "a"⟩ ∧
    BodyParser (.json none none (some "a")) Todo.zero = .ok ⟨NilObjectID, false, "a"⟩ ∧
    createTodos none ⟨[1, 2, 3, 4, 5, 6, 7, 8, 9, 10, 11, 12]⟩ []
        (.json (some ⟨[170, 170, 170, 170, 170, 170, 170, 170, 170, 170, 170, 170]⟩)
          none (some "a")) =
      (.ok ⟨201, JSON.obj [("_id", JSON.str "aaaaaaaaaaaaaaaaaaaaaaaa"),
          ("completed", JSON.bool false), ("body", JSON.str "a")]⟩,
        [⟨⟨[170, 170, 170, 170, 170, 170, 170, 170, 170, 170, 170, 170]⟩, false, "a"⟩]) ∧
    createTodos none ⟨[1, 2, 3, 4, 5, 6, 7, 8, 9, 10, 11, 12]⟩ []
        (.json none none (some "a")) =
      (.ok ⟨201, JSON.obj [("_id", JSON.str "0102030405060708090a0b0c"),
          ("completed", JSON.bool false), ("body", JSON.str "a")]⟩,
        [⟨⟨[1, 2, 3, 4, 5, 6, 7, 8, 9, 10, 11, 12]⟩, false, "a"⟩]) :=
  ⟨rfl, rfl, rfl, rfl⟩

/-! ## Sequences of requests -/

theorem createTodos_cases (fail : Option Error) (gen : ObjectID) (coll : Collection)
    (req : RequestBody) :
    (∃ t : Todo, t.Body ≠ "" ∧
      createTodos fail gen coll req = (.ok ⟨201, t.toJSON⟩, coll ++ [t])) ∨
    ((∀ body, (createTodos fail gen coll req).1 ≠ .ok ⟨201, body⟩) ∧
      (createTodos fail gen coll req).2 = coll) := by
  cases req with
  | malformed => right; simp [createTodos, BodyParser]
  | json id completed body =>
    by_cases hb : body.getD "" = ""
    · right; simp [createTodos, BodyParser, Todo.zero, hb]
    · cases fail with
      | some e => right; simp [createTodos, BodyParser, Todo.zero, hb, InsertOne]
      | none =>
        by_cases hdup : (coll.any fun d => decide (d.ID =
            if (id.getD NilObjectID).IsZero then gen else id.getD NilObjectID)) = true
        · right
          simp only [createTodos, BodyParser, Todo.zero, hb, InsertOne, if_false]
          rw [if_pos hdup]
          simp
        · left
          refine ⟨⟨if (id.getD NilObjectID).IsZero then gen else id.getD NilObjectID,
            completed.getD false, body.getD ""⟩, hb, ?_⟩
          simp only [createTodos, BodyParser, Todo.zero, hb, InsertOne, if_false]
          rw [if_neg hdup]

theorem createAll_success (calls : List CreateCall) :
    ∀ coll : Collection,
    (∀ r ∈ (createAll coll calls).1, ∃ body, r = .ok ⟨201, body⟩) →
    ∃ ts : List Todo, ts.length = calls.length ∧
      (createAll coll calls).1 = ts.map (fun t => Except.ok ⟨201, t.toJSON⟩) ∧
      (createAll coll calls).2 = coll ++ ts := by
  induction calls with
  | nil => intro coll _; exact ⟨[], rfl, rfl, by simp [createAll]⟩
  | cons c cs ih =>
    intro coll h
    simp only [createAll, List.mem_cons, forall_eq_or_imp] at h
    rcases createTodos_cases c.1 c.2.1 coll c.2.2 with ⟨t, _, ht⟩ | ⟨hno, _⟩
    · have h2 := h.2
      rw [ht] at h2
      obtain ⟨ts, hlen, hres, hcoll⟩ := ih (coll ++ [t]) h2
      refine ⟨t :: ts, by simp [hlen], ?_, ?_⟩
      · simp only [createAll, ht, List.map_cons, hres]
      · simp only [createAll, ht, hcoll, List.append_assoc, List.singleton_append]
    · obtain ⟨body, hbody⟩ := h.1
      exact absurd hbody (hno body)

theorem foldl_append_some (ys xs : List Todo) :
    ys.foldl TodoSlice.append (some xs) = some (xs ++ ys) := by
  induction ys generalizing xs with
  | nil => simp
  | cons y ys ih => simp [List.foldl_cons, TodoSlice.append, ih]

theorem foldl_append_none (ys : List Todo) :
    ys.foldl TodoSlice.append none = if ys = [] then none else some ys := by
  cases ys with
  | nil => rfl
  | cons y ys => simp [List.foldl_cons, TodoSlice.append, foldl_append_some]

/-- C9: starting from the empty collection, after any number N of create requests
that were all answered 201, `getTodos` (with a successful read) answers 200 with the
encoding of a slice of exactly N todos, which are the todos of the N create answers
up to order; for N at least one the body is the JSON array of these N todos (for
N = 0 the slice is nil, see C6). -/
theorem getTodos_after_creates (calls : List CreateCall)
    (h : ∀ r ∈ (createAll [] calls).1, ∃ body, r = .ok ⟨201, body⟩) :
    ∃ todos : TodoSlice,
      getTodos none (createAll [] calls).2 = .ok ⟨200, marshalTodos todos⟩ ∧
      todos.items.length = calls.length ∧
      List.Perm (todos.items.map (fun t => (Except.ok ⟨201, t.toJSON⟩ : Result)))
        (createAll [] calls).1 ∧
      (calls ≠ [] → marshalTodos todos = JSON.arr (todos.items.map Todo.toJSON) ∧
        (todos.items.map Todo.toJSON).length = calls.length) := by
  obtain ⟨ts, hlen, hres, hcoll⟩ := createAll_success calls [] h
  rw [List.nil_append] at hcoll
  refine ⟨if ts = [] then none else some ts, ?_, ?_, ?_, ?_⟩
  · simp only [getTodos, Find, hcoll, foldl_append_none]
  · by_cases hts : ts = []
    · simp [hts, TodoSlice.items] at hlen ⊢
      exact hlen
    · simp [hts, TodoSlice.items, hlen]
  · rw [hres]
    by_cases hts : ts = []
    · simp [hts, TodoSlice.items]
    · simp [hts, TodoSlice.items]
  · intro hne
    have hts : ts ≠ [] := by
      intro ht
      rw [ht] at hlen
      exact hne (List.length_eq_zero.1 hlen.symm)
    simp [hts, marshalTodos, TodoSlice.items, hlen]

theorem getTodos_after_creates_witness :
    (∀ r ∈ (createAll [] [(none, ⟨[1]⟩, .json none none (some "a")),
        (none, ⟨[2]⟩, .json none (some true) (some "b"))]).1,
      ∃ body, r = .ok ⟨201, body⟩) ∧
    ∃ todos : TodoSlice,
      getTodos none (createAll [] [(none, ⟨[1]⟩, .json none none (some "a")),
        (none, ⟨[2]⟩, .json none (some true) (some "b"))]).2 =
          .ok ⟨200, marshalTodos todos⟩ ∧
      todos.items.length = 2 :=
  have h : ∀ r ∈ (createAll [] [(none, ⟨[1]⟩, .json none none (some "a")),
        (none, ⟨[2]⟩, .json none (some true) (some "b"))]).1,
      ∃ body, r = .ok ⟨201, body⟩ := by
    intro r hr
    have hrs : (createAll [] [(none, ⟨[1]⟩, .json none none (some "a")),
        (none, ⟨[2]⟩, .json none (some true) (some "b"))]).1 =
        [.ok ⟨201, Todo.toJSON ⟨⟨[1]⟩, false, "a"⟩⟩,
          .ok ⟨201, Todo.toJSON ⟨⟨[2]⟩, true, "b"⟩⟩] := rfl
    rw [hrs] at hr
    simp only [List.mem_cons, List.mem_singleton, List.not_mem_nil, or_false] at hr
    rcases hr with hr | hr <;> exact ⟨_, hr⟩
  ⟨h, (getTodos_after_creates _ h).imp fun _ hx => ⟨hx.1, hx.2.1⟩⟩

/-! ## Invariant -/

theorem setCompleted_body (coll : Collection) (oid : ObjectID) :
    ∀ d ∈ setCompleted coll oid, ∃ d0 ∈ coll, d.Body = d0.Body := by
  induction coll with
  | nil => simp [setCompleted]
  | cons x xs ih =>
    intro d hd
    by_cases h : x.ID = oid
    · simp only [setCompleted, h, if_true, List.mem_cons] at hd
      rcases hd with hd | hd
      · exact ⟨x, List.mem_cons_self _ _, by rw [hd]⟩
      · exact ⟨d, List.mem_cons_of_mem _ hd, rfl⟩
    · simp only [setCompleted, h, if_false, List.mem_cons] at hd
      rcases hd with hd | hd
      · exact ⟨x, List.mem_cons_self _ _, by rw [hd]⟩
      · obtain ⟨d0, hd0, hb⟩ := ih d hd
        exact ⟨d0, List.mem_cons_of_mem _ hd0, hb⟩

theorem removeFirst_mem (coll : Collection) (oid : ObjectID) :
    ∀ d ∈ removeFirst coll oid, d ∈ coll := by
  intro d hd
  rw [removeFirst_eq_eraseP] at hd
  exact List.mem_of_mem_eraseP hd

theorem step_preserves (coll : Collection) (c : Call) (h : BodyNonEmpty coll) :
    BodyNonEmpty (step coll c) := by
  cases c with
  | get fail => exact h
  | create fail gen req =>
    rcases createTodos_cases fail gen coll req with ⟨t, ht, hc⟩ | ⟨_, hc⟩
    · simp only [step, hc]
      intro d hd
      rcases List.mem_append.1 hd with hd | hd
      · exact h d hd
      · rw [List.mem_singleton.1 hd]; exact ht
    · simp only [step, hc]; exact h
  | update fail id =>
    simp only [step, updateTodos]
    cases ObjectIDFromHex id with
    | none => exact h
    | some oid =>
      cases fail with
      | some e => exact h
      | none =>
        intro d hd
        obtain ⟨d0, hd0, hb⟩ := setCompleted_body coll oid d hd
        rw [hb]; exact h d0 hd0
  | delete fail id =>
    simp only [step, deleteTodos]
    cases ObjectIDFromHex id with
    | none => exact h
    | some oid =>
      cases fail with
      | some e => exact h
      | none => exact fun d hd => h d (removeFirst_mem coll oid d hd)

theorem run_preserves (cs : List Call) :
    ∀ coll : Collection, BodyNonEmpty coll → BodyNonEmpty (cs.foldl step coll) := by
  induction cs with
  | nil => intro coll h; exact h
  | cons c cs ih => intro coll h; exact ih (step coll c) (step_preserves coll c h)

/-- C10: "every persisted todo has a non-empty body" is preserved by each of the
four handlers on every input and every behaviour of the storage, and therefore
holds after every sequence of requests started on the empty collection. -/
theorem body_nonempty_invariant :
    (∀ (coll : Collection) (c : Call), BodyNonEmpty coll → BodyNonEmpty (step coll c)) ∧
    (∀ cs : List Call, BodyNonEmpty (cs.foldl step [])) :=
  ⟨step_preserves, fun cs => run_preserves cs [] (fun _ hd => absurd hd (List.not_mem_nil _))⟩

end TodoApp
